import Mathlib

/-!
Verification development for the AutoRBI extraction-and-synchronization
engine.  The definitions below are shallow embeddings of the Python source
in `src/`:

* `DataUpdater` — `src/src/data_extractor/data_updater.py`
* `MasterfileExtractor` — `src/src/data_extractor/masterfile_extractor.py`
* `ExcelManager` — `src/src/excel_manager.py`
* `utils` — `src/src/data_extractor/utils.py`

Python's dynamic cell/field values (None, str, float) are embedded as the
inductive `CellValue`; floats produced by `float(...)` on decimal residues
are modelled exactly as rationals.  `Char.isDigit`/`Char.toLower` model the
ASCII behaviour of `str.isdigit`/`str.lower` (all data handled by the
program is ASCII apart from unit symbols, which are non-digits either way).
The classes in `models.py` and the rule tables in `extraction_rules.py` are
not part of the sources; where needed they are modelled from the spec and
marked as such.
-/

/-- A dynamic Python value as it occurs in worksheet cells and in
`existing_data`: `None`, a string, or a float (modelled as an exact
rational). -/
inductive CellValue where
  | none : CellValue
  | str : String → CellValue
  | num : ℚ → CellValue
deriving DecidableEq, Repr

/-- Python truthiness of a `CellValue` (`if value:`): `None` and `""` and
`0.0` are falsy. -/
def truthyB : CellValue → Bool
  | .none => false
  | .str s => decide (s ≠ "")
  | .num q => decide (q ≠ 0)

/-- `str.lower()` restricted to ASCII, as used by the source on its ASCII
tokens. -/
def lowerStr (s : String) : String := ⟨s.data.map Char.toLower⟩

/-- `lhs` is a prefix of `hay` (Python slice comparison used by `in`). -/
def listStarts : List Char → List Char → Bool
  | [], _ => true
  | _ :: _, [] => false
  | a :: as, b :: bs => (a == b) && listStarts as bs

/-- Python's substring test `needle in hay`. -/
def listContains (needle : List Char) : List Char → Bool
  | [] => needle.isEmpty
  | h :: t => listStarts needle (h :: t) || listContains needle t

/-- Value of a digit list read in base 10 (`int` semantics on digit runs). -/
def digitsVal (l : List Char) : ℕ :=
  l.foldl (fun a c => a * 10 + (c.toNat - 48)) 0

/-- Every character is an ASCII digit. -/
def allDigits (l : List Char) : Bool := l.all Char.isDigit

/-- Python `float(s)` on a string drawn from the alphabet
`digits ∪ {., -}` (the only strings the code feeds it): an optional
leading `-`, then digits with at most one `.`, at least one digit in
total; anything else raises, modelled as `Option.none`.  The value is the
exact rational denoted by the decimal literal. -/
def parseFloatPy (s : List Char) : Option ℚ :=
  let core : List Char → Option ℚ := fun l =>
    let ip := l.takeWhile Char.isDigit
    match l.dropWhile Char.isDigit with
    | [] => if ip.isEmpty then Option.none else some (mkRat (digitsVal ip) 1)
    | '.' :: fp =>
        if allDigits fp && !(ip.isEmpty && fp.isEmpty) then
          some (mkRat (digitsVal ip * 10 ^ fp.length + digitsVal fp) (10 ^ fp.length))
        else Option.none
    | _ => Option.none
  match s with
  | '-' :: t => (core t).map (fun q => mkRat (-q.num) q.den)
  | t => core t

namespace DataUpdater

/-- The per-component field dictionary produced by the response parser,
exactly the keys `_build_updates` reads (`data_updater.py` lines 48-73). -/
structure CompData where
  component_name : String
  fluid : String
  material_specification : String
  material_grade : String
  insulation : String
  design_temperature : String
  design_pressure : String
  operating_temperature : String
  operating_pressure : String
deriving DecidableEq, Repr

/-- A component's `existing_data` mapping: the fixed schema of keys from
`excel_manager.py` lines 54-64 / spec §3. -/
structure ExistingData where
  fluid : CellValue
  material_type : CellValue
  spec : CellValue
  grade : CellValue
  insulation : CellValue
  design_temp : CellValue
  design_pressure : CellValue
  operating_temp : CellValue
  operating_pressure : CellValue
deriving DecidableEq, Repr

/-- The updates dictionary built by `_build_updates`: each target key is
present (`some`) or absent (`Option.none`). -/
structure Updates where
  fluid : Option CellValue := Option.none
  spec : Option CellValue := Option.none
  grade : Option CellValue := Option.none
  insulation : Option CellValue := Option.none
  design_temp : Option CellValue := Option.none
  design_pressure : Option CellValue := Option.none
  operating_temp : Option CellValue := Option.none
  operating_pressure : Option CellValue := Option.none
deriving DecidableEq, Repr

/-- `DataUpdater._convert_value` (`data_updater.py` lines 78-93): `None`
for the sentinel/empty value; lower-cased `yes`/`no`; else strip all
characters but digits, `.`, `-`, and store the parsed float when the
residue is nonempty, not `"-"`, and parses; otherwise the original string
unchanged. -/
def convert_value (value : String) : CellValue :=
  if value = "NOT_FOUND" ∨ value = "" then CellValue.none
  else if lowerStr value = "yes" ∨ lowerStr value = "no" then
    CellValue.str (lowerStr value)
  else
    let clean_value := value.data.filter
      (fun c => c.isDigit || c == '.' || c == '-')
    if clean_value ≠ [] ∧ clean_value ≠ ['-'] then
      match parseFloatPy clean_value with
      | some q => CellValue.num q
      | Option.none => CellValue.str value
    else CellValue.str value

/-- Field-presence test at `data_updater.py` lines 48, 51, 53, 56, 73:
the value is neither the sentinel `"NOT_FOUND"` nor the empty string. -/
def present (v : String) : Bool := decide (v ≠ "NOT_FOUND") && decide (v ≠ "")

/-- `DataUpdater._build_updates` (`data_updater.py` lines 40-76),
transcribed with its actual indentation: the `for` loop over
`pressure_temp_fields` is nested inside the `if not skip_operating_pressure_temp`
branch, so when the skip flag is set no pressure/temperature field is ever
written (the dictionary assigned in the `if skip_...` branch is dead).
The two rule-set membership tests (lines 44-45) are data lookups in
`extraction_rules.py` (not among the sources; per spec §9 the rule tables
are pure data), so they enter here as the boolean parameters
`skip_operating_pressure_temp` and `insulation_only`. -/
def build_updates (skip_operating_pressure_temp insulation_only : Bool)
    (c : CompData) : Updates :=
  let u : Updates := {}
  let u := if !insulation_only then
      let u := if present c.fluid then
          { u with fluid := some (CellValue.str c.fluid) } else u
      let u := if present c.material_specification then
          { u with spec := some (CellValue.str c.material_specification) } else u
      let u := if present c.material_grade then
          { u with grade := some (CellValue.str c.material_grade) } else u
      u
    else u
  let u := if present c.insulation then
      { u with insulation := some (CellValue.str c.insulation) } else u
  if !skip_operating_pressure_temp then
    let u := if present c.design_temperature then
        { u with design_temp := some (convert_value c.design_temperature) } else u
    let u := if present c.design_pressure then
        { u with design_pressure := some (convert_value c.design_pressure) } else u
    let u := if present c.operating_temperature then
        { u with operating_temp := some (convert_value c.operating_temperature) } else u
    let u := if present c.operating_pressure then
        { u with operating_pressure := some (convert_value c.operating_pressure) } else u
    u
  else u

/-- Modelled from the spec: `Component.update_existing_data` lives in
`models.py`, which is not among the sources.  Per spec §3/§4.5 the mapping
has the fixed schema above and a merge writes exactly the keys present in
the updates dictionary, field-atomically; every key `_build_updates`
produces is in the schema. -/
def update_existing_data (d : ExistingData) (u : Updates) : ExistingData where
  fluid := u.fluid.getD d.fluid
  material_type := d.material_type
  spec := u.spec.getD d.spec
  grade := u.grade.getD d.grade
  insulation := u.insulation.getD d.insulation
  design_temp := u.design_temp.getD d.design_temp
  design_pressure := u.design_pressure.getD d.design_pressure
  operating_temp := u.operating_temp.getD d.operating_temp
  operating_pressure := u.operating_pressure.getD d.operating_pressure

/-- One component's merge step (`_update_component` applying
`_build_updates` to the component's `existing_data`). -/
def mergeComponent (skip_operating_pressure_temp insulation_only : Bool)
    (c : CompData) (d : ExistingData) : ExistingData :=
  update_existing_data d (build_updates skip_operating_pressure_temp insulation_only c)

/-- A `CompData` with every field at the sentinel, for concrete tests. -/
def sentinelComp : CompData where
  component_name := "Shell"
  fluid := "NOT_FOUND"
  material_specification := "NOT_FOUND"
  material_grade := "NOT_FOUND"
  insulation := "NOT_FOUND"
  design_temperature := "NOT_FOUND"
  design_pressure := "NOT_FOUND"
  operating_temperature := "NOT_FOUND"
  operating_pressure := "NOT_FOUND"

/-- An `ExistingData` with every cell `None`, for concrete tests. -/
def blankData : ExistingData where
  fluid := CellValue.none
  material_type := CellValue.none
  spec := CellValue.none
  grade := CellValue.none
  insulation := CellValue.none
  design_temp := CellValue.none
  design_pressure := CellValue.none
  operating_temp := CellValue.none
  operating_pressure := CellValue.none

end DataUpdater

namespace MasterfileExtractor

/-- The outcome of one body of the retry loop in `extract_technical_data`
(`masterfile_extractor.py` lines 36-57): the service call either returns a
parsed result (a list of per-component dictionaries under the key
`components_data`; `{}` from the parser is modelled as `Option.none`) or
raises an exception carrying a message. -/
inductive CallOutcome where
  | success : Option (List DataUpdater.CompData) → CallOutcome
  | failure : String → CallOutcome

/-- The transient-error test of `MasterfileExtractor._should_retry`
(`masterfile_extractor.py` lines 84-92): the message contains `'529'`, or
its lower-casing contains `'overloaded'`. -/
def transientError (error_msg : String) : Bool :=
  listContains "529".data error_msg.data ||
    listContains "overloaded".data (lowerStr error_msg).data

/-- The retry loop of `extract_technical_data` (`masterfile_extractor.py`
lines 35-65) for an existing image path, driven by the outcome of each
attempt.  Returns the extraction result together with the number of
attempts made and the list of back-off sleeps performed, in order
(`_should_retry` sleeps `base_delay * 2 ** attempt` before answering
`True`).  The function is total: every path returns an (possibly empty)
result, never an exception. -/
def extractLoop (service : ℕ → CallOutcome) (base_delay : ℕ) :
    ℕ → ℕ → Option (List DataUpdater.CompData) × ℕ × List ℕ
  | _, 0 => (Option.none, 0, [])
  | attempt, fuel + 1 =>
    match service attempt with
    | .success r => (r, 1, [])
    | .failure msg =>
      if transientError msg then
        let rest := extractLoop service base_delay (attempt + 1) fuel
        (rest.1, rest.2.1 + 1, base_delay * 2 ^ attempt :: rest.2.2)
      else (Option.none, 1, [])

/-- `extract_technical_data` with `max_retries = 5`, `base_delay = 1`
(`masterfile_extractor.py` lines 23-24). -/
def extract_technical_data (service : ℕ → CallOutcome) :
    Option (List DataUpdater.CompData) × ℕ × List ℕ :=
  extractLoop service 1 0 5

/-- Truthiness of `technical_data and technical_data.get('components_data')`
(`masterfile_extractor.py` line 116): an empty dict or an empty/missing
`components_data` list is falsy. -/
def resultTruthy : Option (List DataUpdater.CompData) → Bool
  | Option.none => false
  | some l => !l.isEmpty

/-- `_process_single_equipment` (`masterfile_extractor.py` lines 103-123):
try the candidate images in order; the first image whose extraction result
is truthy wins and is returned; a falsy result advances to the next image;
an exhausted (or empty) candidate list yields `{}` (here `Option.none`),
matching both the `if not image_files` early return and the fall-through
at line 123.  `extract` abstracts `self.extract_technical_data(image, eq)`
for the fixed equipment. -/
def process_single_equipment {α : Type}
    (extract : α → Option (List DataUpdater.CompData)) :
    List α → Option (List DataUpdater.CompData)
  | [] => Option.none
  | img :: rest =>
    if resultTruthy (extract img) then extract img
    else process_single_equipment extract rest

/-- `process_equipment_images` (`masterfile_extractor.py` lines 94-101):
fold `extracted_data.update(single(...))` over the equipment map, where a
failed equipment contributes `{}`. -/
def process_equipment_images {σ : Type}
    (single : σ → Option (List DataUpdater.CompData)) :
    List (String × σ) → List (String × List DataUpdater.CompData)
  | [] => []
  | (n, e) :: rest =>
    match single e with
    | some l => (n, l) :: process_equipment_images single rest
    | Option.none => process_equipment_images single rest

end MasterfileExtractor

namespace ExcelManager

/-- A component as built at `excel_manager.py` lines 50-65. -/
structure CompRec where
  component_name : CellValue
  phase : CellValue
  row_index : ℕ
  existing_data : DataUpdater.ExistingData
deriving DecidableEq, Repr

/-- An equipment as built at `excel_manager.py` lines 40-45; `components`
is the ordered collection filled by `add_component`.  (Modelled from the
spec: the `Equipment`/`Component` classes live in `models.py`, which is
not among the sources; per spec §3 an Equipment owns an ordered collection
of Components and `add_component` appends to it.) -/
structure EquipRec where
  equipment_number : CellValue
  pmt_number : CellValue
  equipment_description : CellValue
  row_index : ℕ
  components : List CompRec
deriving DecidableEq, Repr

/-- The `Masterfile` worksheet: `max_row` and the cell values of the
columns the scan reads, per row (`_get_cell_value` is total, merged or
missing cells read as `None` = `CellValue.none`). -/
structure Sheet where
  maxRow : ℕ
  cellB : ℕ → CellValue
  cellC : ℕ → CellValue
  cellD : ℕ → CellValue
  cellE : ℕ → CellValue
  cellF : ℕ → CellValue
  cellG : ℕ → CellValue
  cellH : ℕ → CellValue
  cellI : ℕ → CellValue
  cellJ : ℕ → CellValue
  cellK : ℕ → CellValue
  cellL : ℕ → CellValue
  cellM : ℕ → CellValue
  cellN : ℕ → CellValue
  cellO : ℕ → CellValue

/-- The equipment-number cell test at `excel_manager.py` line 34:
`equipment_number and equipment_number not in ['EQUIPMENT NO.', '']`
(`not in` compares with `==`, which across types is `False`). -/
def isEquipCell (v : CellValue) : Bool :=
  truthyB v &&
    (match v with
     | .str s => decide (s ≠ "EQUIPMENT NO.") && decide (s ≠ "")
     | _ => true)

/-- The component-name cell test at `excel_manager.py` line 48 (the
`current_equipment` conjunct is handled at the use site). -/
def isCompCell (v : CellValue) : Bool :=
  truthyB v &&
    (match v with
     | .str s => decide (s ≠ "COMPONENTS") && decide (s ≠ "")
     | _ => true)

/-- Python dict assignment `equipment_map[key] = value` on an insertion
-ordered association list. -/
def dictInsert (k : CellValue) (v : EquipRec) :
    List (CellValue × EquipRec) → List (CellValue × EquipRec)
  | [] => [(k, v)]
  | (k', v') :: t => if k' = k then (k, v) :: t else (k', v') :: dictInsert k v t

/-- Flush of the accumulated equipment at `excel_manager.py` lines 36-38
and 72-73: added only when it exists and has at least one component. -/
def flush (cur : Option EquipRec) (m : List (CellValue × EquipRec)) :
    List (CellValue × EquipRec) :=
  match cur with
  | some c => if c.components ≠ [] then dictInsert c.equipment_number c m else m
  | Option.none => m

/-- The `existing_data` read from columns G..O at `excel_manager.py`
lines 54-64. -/
def readExisting (ws : Sheet) (row : ℕ) : DataUpdater.ExistingData where
  fluid := ws.cellG row
  material_type := ws.cellH row
  spec := ws.cellI row
  grade := ws.cellJ row
  insulation := ws.cellK row
  design_temp := ws.cellL row
  design_pressure := ws.cellM row
  operating_temp := ws.cellN row
  operating_pressure := ws.cellO row

/-- One iteration of the scan loop of `read_masterfile`
(`excel_manager.py` lines 31-69) at a given row. -/
def scanStep (ws : Sheet) (row : ℕ) (cur : Option EquipRec)
    (m : List (CellValue × EquipRec)) :
    Option EquipRec × List (CellValue × EquipRec) :=
  let eqv := ws.cellB row
  let cpv := ws.cellE row
  let st :=
    if isEquipCell eqv then
      (some { equipment_number := eqv
              pmt_number := ws.cellC row
              equipment_description := ws.cellD row
              row_index := row
              components := [] }, flush cur m)
    else (cur, m)
  let cur' :=
    if st.1.isSome && isCompCell cpv then
      st.1.map (fun c =>
        { c with components := c.components ++
            [{ component_name := cpv
               phase := ws.cellF row
               row_index := row
               existing_data := readExisting ws row }] })
    else st.1
  (cur', st.2)

/-- The scan loop, driven by the remaining iteration count. -/
def scanRows (ws : Sheet) :
    ℕ → ℕ → Option EquipRec → List (CellValue × EquipRec) →
    List (CellValue × EquipRec)
  | 0, _, cur, m => flush cur m
  | fuel + 1, row, cur, m =>
    let st := scanStep ws row cur m
    scanRows ws fuel (row + 1) st.1 st.2

/-- `ExcelManager.read_masterfile` (`excel_manager.py` lines 19-78): scan
rows 7 through `min(max_row, 50)` (the hard 50-row ceiling of line 30),
then flush the last accumulated equipment. -/
def read_masterfile (ws : Sheet) : List (CellValue × EquipRec) :=
  scanRows ws (min ws.maxRow 50 + 1 - 7) 7 Option.none []

end ExcelManager

namespace PathStrings

/-- Everything after the last `'/'` (the tail of `os.path.split` on a
POSIX path; the whole string when no separator occurs). -/
def basenameL (s : List Char) : List Char :=
  (s.reverse.takeWhile (fun c => c != '/')).reverse

/-- CPython `os.path.splitext` semantics (`genericpath._splitext` with
`sep = '/'`): split at the last dot, provided it lies after the last
separator and the basename has a non-dot character before it; otherwise
the extension is empty. -/
def splitExtL (s : List Char) : List Char × List Char :=
  let r := s.reverse
  let afterDotRev := r.takeWhile (fun c => c != '.')
  match r.dropWhile (fun c => c != '.') with
  | [] => (s, [])
  | _ :: beforeRev =>
    if !afterDotRev.contains '/' &&
        (beforeRev.takeWhile (fun c => c != '/')).any (fun c => c != '.') then
      (beforeRev.reverse, '.' :: afterDotRev.reverse)
    else (s, [])

/-- Two-argument `os.path.join` on POSIX strings: an absolute second
component replaces the first; otherwise the components are glued with a
`'/'` unless the first is empty or already ends in one. -/
def joinL (a b : List Char) : List Char :=
  if b.head? = some '/' then b
  else
    match a.getLast? with
    | Option.none => a ++ b
    | some c => if c = '/' then a ++ b else a ++ '/' :: b

end PathStrings

namespace ExcelManager

/-- The output path computed by `save_to_excel` (`excel_manager.py`
lines 200-212) from the manager's source `file_path` and the optional
`user_id`; `default_path` is the literal `"src\output_files"` of line 17
(a backslash is an ordinary character on the POSIX paths modelled here).
`os.path.join(a, b, c)` is `joinL (joinL a b) c`, and the head of
`os.path.split` is discarded by the source (`path` is reassigned). -/
def savePathChars (file_path : List Char) (user_id : Option ℕ) : List Char :=
  let default_path := "src\\output_files".data
  let be := PathStrings.splitExtL file_path
  let base_name := PathStrings.basenameL be.1
  match user_id with
  | Option.none =>
    PathStrings.joinL (PathStrings.joinL default_path "default/excel".data)
      (base_name ++ "_modified".data ++ be.2)
  | some u =>
    PathStrings.joinL
      (PathStrings.joinL default_path ("user_".data ++ (toString u).data ++ "/excel".data))
      ((toString u).data ++ "_".data ++ base_name ++ "_modified".data ++ be.2)

/-- String version of `savePathChars`. -/
def savePath (file_path : String) (user_id : Option ℕ) : String :=
  ⟨savePathChars file_path.data user_id⟩

/-- Outcome of the worksheet-write-and-save body of `save_to_excel`
(the openpyxl cell writes and `wb.save`, external effects). -/
inductive SaveOutcome where
  | ok : SaveOutcome
  | error : String → SaveOutcome

/-- `ExcelManager.save_to_excel` (`excel_manager.py` lines 178-220):
the whole body sits in `try/except Exception`, so the call returns `True`
with the file written at the derived output path, or `False` on any
failure; no exception escapes (the function is total).  Returns the
boolean result and the path written to (if any). -/
def save_to_excel (file_path : String) (user_id : Option ℕ)
    (outcome : SaveOutcome) : Bool × Option String :=
  match outcome with
  | .ok => (true, some (savePath file_path user_id))
  | .error _ => (false, Option.none)

end ExcelManager

namespace Utils

/-- A file in the image directory tree, split as `Path.stem` plus the
extension (suffix) that the `rglob` patterns inspect. -/
structure FileEntry where
  stem : String
  ext : String
deriving DecidableEq, Repr

/-- The normalization of `find_equipment_images` (`utils.py` lines 55,
59): drop spaces, dashes and underscores, then lower-case. -/
def cleanName (s : String) : String :=
  ⟨(s.data.filter (fun c => c ≠ ' ' ∧ c ≠ '-' ∧ c ≠ '_')).map Char.toLower⟩

/-- Total order on files used to model `image_files.sort()` (Python sorts
`Path` objects; any fixed total order gives the same sortedness and
dedup-freedom guarantees). -/
def fileLe (a b : FileEntry) : Prop :=
  (a.stem ++ a.ext).data ≤ (b.stem ++ b.ext).data

instance : DecidableRel fileLe := fun a b => by
  unfold fileLe; infer_instance

instance : IsTotal FileEntry fileLe :=
  ⟨fun a b => le_total (a.stem ++ a.ext).data (b.stem ++ b.ext).data⟩

instance : IsTrans FileEntry fileLe :=
  ⟨fun _ _ _ h h' => le_trans h h'⟩

/-- `find_equipment_images` (`utils.py` lines 47-68): for each of the
patterns `*.png`, `*.jpg`, `*.jpeg`, keep the files whose cleaned stem
contains the cleaned PMT number as a substring; then de-duplicate
(`list(set(...))`) and sort. -/
def find_equipment_images (pmt_number : String) (files : List FileEntry) :
    List FileEntry :=
  let clean_pmt := cleanName pmt_number
  let keep : String → List FileEntry := fun pat =>
    files.filter (fun f =>
      f.ext == pat && listContains clean_pmt.data (cleanName f.stem).data)
  let image_files := keep ".png" ++ keep ".jpg" ++ keep ".jpeg"
  image_files.dedup.insertionSort fileLe

end Utils

namespace ExcelManager

/-- A concrete worksheet for witnesses: row 7 declares equipment `V-1`,
row 8 attaches component `Shell` to it, row 9 declares `V-2`, which never
accumulates a component. -/
def sheetW : Sheet where
  maxRow := 9
  cellB := fun r =>
    if r = 7 then .str "V-1" else if r = 9 then .str "V-2" else .none
  cellC := fun _ => .none
  cellD := fun _ => .none
  cellE := fun r => if r = 8 then .str "Shell" else .none
  cellF := fun _ => .none
  cellG := fun _ => .none
  cellH := fun _ => .none
  cellI := fun _ => .none
  cellJ := fun _ => .none
  cellK := fun _ => .none
  cellL := fun _ => .none
  cellM := fun _ => .none
  cellN := fun _ => .none
  cellO := fun _ => .none

/-- The equipment record the scan builds from `sheetW`. -/
def equipW : EquipRec where
  equipment_number := .str "V-1"
  pmt_number := .none
  equipment_description := .none
  row_index := 7
  components :=
    [{ component_name := .str "Shell"
       phase := .none
       row_index := 8
       existing_data := DataUpdater.blankData }]

end ExcelManager

example : DataUpdater.convert_value "150°C" = CellValue.num 150 := by decide
example : DataUpdater.convert_value "N/A" = CellValue.str "N/A" := by decide
example : DataUpdater.convert_value "Yes" = CellValue.str "yes" := by decide
example : DataUpdater.convert_value "-12.5 barg" = CellValue.num (mkRat (-25) 2) := by decide
example : DataUpdater.convert_value " 1.2.3 " = CellValue.str " 1.2.3 " := by decide
example : parseFloatPy ['-'] = Option.none := by decide
example : parseFloatPy ['1', '.'] = some 1 := by decide
example : parseFloatPy ['.', '5'] = some (mkRat 1 2) := by decide
example : parseFloatPy ['.'] = Option.none := by decide

namespace DataUpdater

theorem bu_fluid (sk io : Bool) (c : CompData) :
    (build_updates sk io c).fluid =
      if !io && present c.fluid then some (CellValue.str c.fluid)
      else Option.none := by
  unfold build_updates
  cases sk <;> cases io <;> simp [apply_ite Updates.fluid, ite_self]

theorem bu_spec (sk io : Bool) (c : CompData) :
    (build_updates sk io c).spec =
      if !io && present c.material_specification then
        some (CellValue.str c.material_specification)
      else Option.none := by
  unfold build_updates
  cases sk <;> cases io <;> simp [apply_ite Updates.spec, ite_self]

theorem bu_grade (sk io : Bool) (c : CompData) :
    (build_updates sk io c).grade =
      if !io && present c.material_grade then
        some (CellValue.str c.material_grade)
      else Option.none := by
  unfold build_updates
  cases sk <;> cases io <;> simp [apply_ite Updates.grade, ite_self]

theorem bu_insulation (sk io : Bool) (c : CompData) :
    (build_updates sk io c).insulation =
      if present c.insulation then some (CellValue.str c.insulation)
      else Option.none := by
  unfold build_updates
  cases sk <;> cases io <;> simp [apply_ite Updates.insulation, ite_self]

theorem bu_design_temp (sk io : Bool) (c : CompData) :
    (build_updates sk io c).design_temp =
      if !sk && present c.design_temperature then
        some (convert_value c.design_temperature)
      else Option.none := by
  unfold build_updates
  cases sk <;> cases io <;> simp [apply_ite Updates.design_temp, ite_self]

theorem bu_design_pressure (sk io : Bool) (c : CompData) :
    (build_updates sk io c).design_pressure =
      if !sk && present c.design_pressure then
        some (convert_value c.design_pressure)
      else Option.none := by
  unfold build_updates
  cases sk <;> cases io <;> simp [apply_ite Updates.design_pressure, ite_self]

theorem bu_operating_temp (sk io : Bool) (c : CompData) :
    (build_updates sk io c).operating_temp =
      if !sk && present c.operating_temperature then
        some (convert_value c.operating_temperature)
      else Option.none := by
  unfold build_updates
  cases sk <;> cases io <;> simp [apply_ite Updates.operating_temp, ite_self]

theorem bu_operating_pressure (sk io : Bool) (c : CompData) :
    (build_updates sk io c).operating_pressure =
      if !sk && present c.operating_pressure then
        some (convert_value c.operating_pressure)
      else Option.none := by
  unfold build_updates
  cases sk <;> cases io <;> simp [apply_ite Updates.operating_pressure, ite_self]

theorem merge_fluid (sk io : Bool) (c : CompData) (d : ExistingData) :
    (mergeComponent sk io c d).fluid =
      if !io && present c.fluid then CellValue.str c.fluid else d.fluid := by
  unfold mergeComponent update_existing_data
  rw [bu_fluid]; split <;> simp

theorem merge_material_type (sk io : Bool) (c : CompData) (d : ExistingData) :
    (mergeComponent sk io c d).material_type = d.material_type := by
  simp [mergeComponent, update_existing_data]

theorem merge_spec (sk io : Bool) (c : CompData) (d : ExistingData) :
    (mergeComponent sk io c d).spec =
      if !io && present c.material_specification then
        CellValue.str c.material_specification
      else d.spec := by
  unfold mergeComponent update_existing_data
  rw [bu_spec]; split <;> simp

theorem merge_grade (sk io : Bool) (c : CompData) (d : ExistingData) :
    (mergeComponent sk io c d).grade =
      if !io && present c.material_grade then
        CellValue.str c.material_grade
      else d.grade := by
  unfold mergeComponent update_existing_data
  rw [bu_grade]; split <;> simp

theorem merge_insulation (sk io : Bool) (c : CompData) (d : ExistingData) :
    (mergeComponent sk io c d).insulation =
      if present c.insulation then CellValue.str c.insulation
      else d.insulation := by
  unfold mergeComponent update_existing_data
  rw [bu_insulation]; split <;> simp

theorem merge_design_temp (sk io : Bool) (c : CompData) (d : ExistingData) :
    (mergeComponent sk io c d).design_temp =
      if !sk && present c.design_temperature then
        convert_value c.design_temperature
      else d.design_temp := by
  unfold mergeComponent update_existing_data
  rw [bu_design_temp]; split <;> simp

theorem merge_design_pressure (sk io : Bool) (c : CompData) (d : ExistingData) :
    (mergeComponent sk io c d).design_pressure =
      if !sk && present c.design_pressure then
        convert_value c.design_pressure
      else d.design_pressure := by
  unfold mergeComponent update_existing_data
  rw [bu_design_pressure]; split <;> simp

theorem merge_operating_temp (sk io : Bool) (c : CompData) (d : ExistingData) :
    (mergeComponent sk io c d).operating_temp =
      if !sk && present c.operating_temperature then
        convert_value c.operating_temperature
      else d.operating_temp := by
  unfold mergeComponent update_existing_data
  rw [bu_operating_temp]; split <;> simp

theorem merge_operating_pressure (sk io : Bool) (c : CompData) (d : ExistingData) :
    (mergeComponent sk io c d).operating_pressure =
      if !sk && present c.operating_pressure then
        convert_value c.operating_pressure
      else d.operating_pressure := by
  unfold mergeComponent update_existing_data
  rw [bu_operating_pressure]; split <;> simp

theorem present_eq_false {v : String} (h : v = "NOT_FOUND" ∨ v = "") :
    present v = false := by
  rcases h with h | h <;> simp [present, h]

theorem present_eq_true {v : String} (h1 : v ≠ "NOT_FOUND") (h2 : v ≠ "") :
    present v = true := by
  simp [present, h1, h2]

end DataUpdater

open DataUpdater in
/-- C1, counterexample: the claim says an insulation-only equipment's
merge writes at most the `insulation` field, but for an insulation-only
equipment that is not in the skip-operating set, a non-sentinel extracted
design temperature is written to `design_temp`: merging
`design_temperature = "100"` onto blank existing data changes
`design_temp` (the `insulation_only` flag guards only fluid/spec/grade in
`_build_updates`). -/
theorem c1_insulation_only_counterexample :
    (mergeComponent false true
        { sentinelComp with design_temperature := "100" } blankData).design_temp
      ≠ blankData.design_temp := by
  decide

open DataUpdater in
/-- C1, amended: for every insulation-only equipment, merging never
writes `fluid`, `material_type`, `spec` or `grade`; a non-sentinel,
non-empty extracted insulation value is written; and when the equipment
is additionally in the skip-operating set, the design/operating
temperature and pressure fields are also left unchanged, so that at most
`insulation` is written. -/
theorem c1_insulation_only_merge (sk : Bool) (c : CompData) (d : ExistingData) :
    (mergeComponent sk true c d).fluid = d.fluid ∧
    (mergeComponent sk true c d).material_type = d.material_type ∧
    (mergeComponent sk true c d).spec = d.spec ∧
    (mergeComponent sk true c d).grade = d.grade ∧
    (c.insulation ≠ "NOT_FOUND" → c.insulation ≠ "" →
      (mergeComponent sk true c d).insulation = CellValue.str c.insulation) ∧
    (sk = true →
      (mergeComponent sk true c d).design_temp = d.design_temp ∧
      (mergeComponent sk true c d).design_pressure = d.design_pressure ∧
      (mergeComponent sk true c d).operating_temp = d.operating_temp ∧
      (mergeComponent sk true c d).operating_pressure = d.operating_pressure) := by
  refine ⟨?_, merge_material_type sk true c d, ?_, ?_, ?_, ?_⟩
  · rw [merge_fluid]; simp
  · rw [merge_spec]; simp
  · rw [merge_grade]; simp
  · intro h1 h2
    rw [merge_insulation]; simp [present_eq_true h1 h2]
  · intro hsk
    subst hsk
    rw [merge_design_temp, merge_design_pressure, merge_operating_temp,
      merge_operating_pressure]
    simp

open DataUpdater in
/-- C1, witness for the amended theorem: a concrete insulation-only,
skip-flagged equipment with extracted `fluid = "Water"` and
`insulation = "Yes"` leaves every field but insulation unchanged and
writes the insulation verbatim. -/
theorem c1_insulation_only_merge_witness :
    (mergeComponent true true
        { sentinelComp with fluid := "Water", insulation := "Yes" }
        blankData).fluid = blankData.fluid ∧
    (mergeComponent true true
        { sentinelComp with fluid := "Water", insulation := "Yes" }
        blankData).insulation = CellValue.str "Yes" ∧
    (mergeComponent true true
        { sentinelComp with fluid := "Water", insulation := "Yes" }
        blankData).design_temp = blankData.design_temp := by
  have h := c1_insulation_only_merge true
    { sentinelComp with fluid := "Water", insulation := "Yes" } blankData
  exact ⟨h.1, h.2.2.2.2.1 (by decide) (by decide), (h.2.2.2.2.2 rfl).1⟩

open DataUpdater in
/-- C2: evaluation of the code at the failing input.  For an equipment in
the skip-operating set (and not insulation-only), an extraction result
carrying non-sentinel design and operating values is merged into blank
existing data without writing anything at all — in particular
`design_temp` is not written even though the extracted value coerces to
`150.0` — because the write loop of `_build_updates` is nested inside the
`if not skip_operating_pressure_temp` branch (`data_updater.py` lines
64-74) and the field table assigned for the skip case (lines 59-63) is
dead. -/
theorem c2_skip_operating_design_eval :
    mergeComponent true false
        { sentinelComp with
            design_temperature := "150°C"
            design_pressure := "10 barg"
            operating_temperature := "80"
            operating_pressure := "5 barg" }
        blankData = blankData ∧
    convert_value "150°C" = CellValue.num 150 := by
  decide

open DataUpdater in
/-- C3: a field whose extracted value is `"NOT_FOUND"` or `""` never
changes the corresponding `existing_data` field of the component, for
every equipment (any combination of rule flags) and any prior data. -/
theorem c3_sentinel_preserves (sk io : Bool) (c : CompData) (d : ExistingData) :
    (c.fluid = "NOT_FOUND" ∨ c.fluid = "" →
      (mergeComponent sk io c d).fluid = d.fluid) ∧
    (c.material_specification = "NOT_FOUND" ∨ c.material_specification = "" →
      (mergeComponent sk io c d).spec = d.spec) ∧
    (c.material_grade = "NOT_FOUND" ∨ c.material_grade = "" →
      (mergeComponent sk io c d).grade = d.grade) ∧
    (c.insulation = "NOT_FOUND" ∨ c.insulation = "" →
      (mergeComponent sk io c d).insulation = d.insulation) ∧
    (c.design_temperature = "NOT_FOUND" ∨ c.design_temperature = "" →
      (mergeComponent sk io c d).design_temp = d.design_temp) ∧
    (c.design_pressure = "NOT_FOUND" ∨ c.design_pressure = "" →
      (mergeComponent sk io c d).design_pressure = d.design_pressure) ∧
    (c.operating_temperature = "NOT_FOUND" ∨ c.operating_temperature = "" →
      (mergeComponent sk io c d).operating_temp = d.operating_temp) ∧
    (c.operating_pressure = "NOT_FOUND" ∨ c.operating_pressure = "" →
      (mergeComponent sk io c d).operating_pressure = d.operating_pressure) := by
  refine ⟨fun h => ?_, fun h => ?_, fun h => ?_, fun h => ?_,
    fun h => ?_, fun h => ?_, fun h => ?_, fun h => ?_⟩
  · rw [merge_fluid]; simp [present_eq_false h]
  · rw [merge_spec]; simp [present_eq_false h]
  · rw [merge_grade]; simp [present_eq_false h]
  · rw [merge_insulation]; simp [present_eq_false h]
  · rw [merge_design_temp]; simp [present_eq_false h]
  · rw [merge_design_pressure]; simp [present_eq_false h]
  · rw [merge_operating_temp]; simp [present_eq_false h]
  · rw [merge_operating_pressure]; simp [present_eq_false h]

open DataUpdater in
/-- C3, witness: merging an all-sentinel extraction result over concrete
non-empty existing data leaves the checked fields exactly as they were. -/
theorem c3_sentinel_preserves_witness :
    (mergeComponent false false sentinelComp
        { blankData with
            fluid := CellValue.str "Water"
            design_temp := CellValue.num 150 }).fluid = CellValue.str "Water" ∧
    (mergeComponent false false sentinelComp
        { blankData with
            fluid := CellValue.str "Water"
            design_temp := CellValue.num 150 }).design_temp = CellValue.num 150 := by
  have h := c3_sentinel_preserves false false sentinelComp
    { blankData with
        fluid := CellValue.str "Water"
        design_temp := CellValue.num 150 }
  exact ⟨h.1 (Or.inl rfl), h.2.2.2.2.1 (Or.inl rfl)⟩

open DataUpdater in
/-- C6, counterexample: the claim says a written insulation value matching
`yes`/`no` case-insensitively is stored lower-cased, but `_build_updates`
stores the insulation value verbatim (line 57 does not call
`_convert_value`): the extracted value `"Yes"` is stored as `"Yes"`, not
`"yes"`. -/
theorem c6_insulation_case_counterexample :
    (mergeComponent false false { sentinelComp with insulation := "Yes" }
        blankData).insulation = CellValue.str "Yes" ∧
    CellValue.str "Yes" ≠ CellValue.str "yes" := by
  decide

open DataUpdater in
/-- C6, amended: every written insulation value is stored exactly as
provided, with no case normalization; the `yes`/`no` lower-casing of
`_convert_value` is applied only to the design/operating fields. -/
theorem c6_insulation_verbatim (sk io : Bool) (c : CompData) (d : ExistingData)
    (h1 : c.insulation ≠ "NOT_FOUND") (h2 : c.insulation ≠ "") :
    (mergeComponent sk io c d).insulation = CellValue.str c.insulation := by
  rw [merge_insulation]; simp [present_eq_true h1 h2]

open DataUpdater in
/-- C6, witness: the concrete insulation value `"NO"` is stored as the
string `"NO"`. -/
theorem c6_insulation_verbatim_witness :
    (mergeComponent false false { sentinelComp with insulation := "NO" }
        blankData).insulation = CellValue.str "NO" :=
  c6_insulation_verbatim false false { sentinelComp with insulation := "NO" }
    blankData (by decide) (by decide)

open DataUpdater in
/-- C7, counterexample: the claim says a value whose stripped residue does
not parse is stored as the *trimmed* original string, but `_convert_value`
returns the original string unchanged (line 93, no `strip()`): the
numeric-looking value `" 1.2.3 "` (residue `1.2.3`, which `float` rejects)
is stored with its surrounding spaces, not as `"1.2.3"`. -/
theorem c7_untrimmed_counterexample :
    (mergeComponent false false
        { sentinelComp with design_temperature := " 1.2.3 " }
        blankData).design_temp = CellValue.str " 1.2.3 " ∧
    CellValue.str " 1.2.3 " ≠ CellValue.str "1.2.3" := by
  decide

open DataUpdater in
/-- C7, amended: for every written value (non-sentinel, non-empty, not a
case-variant of `yes`/`no`), the stored result keeps only digits, `.` and
`-` of the value and stores the parsed float when that residue parses,
otherwise the original string unchanged (no trimming); in particular
`"150°C"` is stored as the number `150` and `"N/A"` as the string
`"N/A"`.  The third conjunct connects the conversion to the merge: a
non-skip equipment stores exactly `convert_value` of the extracted design
temperature. -/
theorem c7_numeric_coercion (v : String) (h1 : v ≠ "NOT_FOUND") (h2 : v ≠ "")
    (h3 : lowerStr v ≠ "yes") (h4 : lowerStr v ≠ "no") :
    (∀ q : ℚ,
      parseFloatPy (v.data.filter (fun c => c.isDigit || c == '.' || c == '-')) = some q →
      convert_value v = CellValue.num q) ∧
    (parseFloatPy (v.data.filter (fun c => c.isDigit || c == '.' || c == '-')) = Option.none →
      convert_value v = CellValue.str v) ∧
    (∀ (io : Bool) (c : CompData) (d : ExistingData), c.design_temperature = v →
      (mergeComponent false io c d).design_temp = convert_value v) ∧
    convert_value "150°C" = CellValue.num 150 ∧
    convert_value "N/A" = CellValue.str "N/A" := by
  have hchar : convert_value v =
      match parseFloatPy (v.data.filter (fun c => c.isDigit || c == '.' || c == '-')) with
      | some q => CellValue.num q
      | Option.none => CellValue.str v := by
    simp only [convert_value]
    rw [if_neg (by simp [h1, h2]), if_neg (by simp [h3, h4])]
    by_cases hcl : v.data.filter (fun c => c.isDigit || c == '.' || c == '-') ≠ [] ∧
        v.data.filter (fun c => c.isDigit || c == '.' || c == '-') ≠ ['-']
    · rw [if_pos hcl]
    · rw [if_neg hcl]
      rcases not_and_or.mp hcl with h' | h' <;> rw [not_not.mp h'] <;> rfl
  refine ⟨fun q hq => ?_, fun hn => ?_, fun io c d hc => ?_, by decide, by decide⟩
  · rw [hchar, hq]
  · rw [hchar, hn]
  · rw [merge_design_temp]
    simp [hc, present_eq_true h1 h2]

open DataUpdater in
/-- C7, witness for the amended theorem: applied at `"150°C"`, whose
residue `150` parses, and discharging the parse hypothesis concretely. -/
theorem c7_numeric_coercion_witness :
    convert_value "150°C" = CellValue.num 150 ∧
    convert_value "N/A" = CellValue.str "N/A" := by
  have h := c7_numeric_coercion "150°C" (by decide) (by decide) (by decide) (by decide)
  exact ⟨h.1 150 (by decide), h.2.2.2.2⟩

open MasterfileExtractor in
/-- C4: for an existing image path, a service that raises a transient
error (message containing `529` or, case-insensitively, `overloaded`) on
every call makes exactly `max_retries = 5` attempts, sleeping
`base_delay * 2 ^ attempt` after each failed attempt (so `[1, 2, 4, 8, 16]`,
the sleep `2 ^ k` preceding re-attempt `k + 1`), and then yields the empty
result — the embedded loop is total, so no exception propagates; a
service that raises any non-transient error makes exactly one attempt,
never sleeps, and yields the empty result. -/
theorem c4_retry_backoff (msg : String) :
    (transientError msg = true →
      extract_technical_data (fun _ => CallOutcome.failure msg) =
        (Option.none, 5, [1, 2, 4, 8, 16])) ∧
    (transientError msg = false →
      extract_technical_data (fun _ => CallOutcome.failure msg) =
        (Option.none, 1, [])) := by
  constructor <;> intro h <;>
    simp [extract_technical_data, extractLoop, h]

open MasterfileExtractor in
/-- C4, witness: the concrete message `"Error code: 529"` is transient
and drives five attempts with sleeps `[1, 2, 4, 8, 16]`; the concrete
message `"invalid request"` is not and aborts after one attempt with no
sleep. -/
theorem c4_retry_backoff_witness :
    extract_technical_data (fun _ => CallOutcome.failure "Error code: 529") =
      (Option.none, 5, [1, 2, 4, 8, 16]) ∧
    extract_technical_data (fun _ => CallOutcome.failure "invalid request") =
      (Option.none, 1, []) :=
  ⟨(c4_retry_backoff "Error code: 529").1 (by decide),
   (c4_retry_backoff "invalid request").2 (by decide)⟩

open MasterfileExtractor in
/-- C5: candidate images are tried in order — a truthy (non-empty
component data) extraction from the head image is returned as the
equipment's result no matter what the remaining candidates would yield
(they are skipped); a falsy result advances to the tail; if every
candidate (or an empty candidate list) yields a falsy result the
equipment's result is empty and hence absent from the batch; a failed
equipment is simply dropped from the batch result, leaving the processing
of every other equipment unchanged, and a successful one contributes its
entry in order. -/
theorem c5_batch_orchestration {α σ : Type} :
    (∀ (extract : α → Option (List DataUpdater.CompData)) (img : α) (rest : List α),
      resultTruthy (extract img) = true →
      process_single_equipment extract (img :: rest) = extract img) ∧
    (∀ (extract : α → Option (List DataUpdater.CompData)) (img : α) (rest : List α),
      resultTruthy (extract img) = false →
      process_single_equipment extract (img :: rest) =
        process_single_equipment extract rest) ∧
    (∀ (extract : α → Option (List DataUpdater.CompData)) (imgs : List α),
      (∀ i ∈ imgs, resultTruthy (extract i) = false) →
      process_single_equipment extract imgs = Option.none) ∧
    (∀ (single : σ → Option (List DataUpdater.CompData))
        (pre post : List (String × σ)) (n : String) (s : σ),
      single s = Option.none →
      process_equipment_images single (pre ++ (n, s) :: post) =
        process_equipment_images single (pre ++ post)) ∧
    (∀ (single : σ → Option (List DataUpdater.CompData))
        (rest : List (String × σ)) (n : String) (s : σ)
        (l : List DataUpdater.CompData),
      single s = some l →
      process_equipment_images single ((n, s) :: rest) =
        (n, l) :: process_equipment_images single rest) := by
  refine ⟨fun extract img rest h => ?_, fun extract img rest h => ?_,
    fun extract imgs h => ?_, fun single pre post n s h => ?_,
    fun single rest n s l h => ?_⟩
  · simp [process_single_equipment, h]
  · simp [process_single_equipment, h]
  · induction imgs with
    | nil => rfl
    | cons i t ih =>
        have hi := h i (List.mem_cons_self i t)
        simp [process_single_equipment, hi]
        exact ih (fun j hj => h j (List.mem_cons_of_mem i hj))
  · induction pre with
    | nil => simp [process_equipment_images, h]
    | cons p t ih =>
        cases hp : single p.2 <;>
          simp [process_equipment_images, hp, ih]
  · simp [process_equipment_images, h]

open MasterfileExtractor in
/-- C5, witness: with three candidate images where only the second yields
non-empty component data, the second image's result is returned; and a
batch of three equipment whose middle member fails equals the batch
without it. -/
theorem c5_batch_orchestration_witness :
    process_single_equipment
        (fun i => if i = 1 then some [DataUpdater.sentinelComp] else Option.none)
        [0, 1, 2] = some [DataUpdater.sentinelComp] ∧
    process_equipment_images
        (fun s => if s = 0 then some [DataUpdater.sentinelComp] else Option.none)
        [("A", 0), ("B", 1), ("C", 0)] =
      process_equipment_images
        (fun s => if s = 0 then some [DataUpdater.sentinelComp] else Option.none)
        [("A", 0), ("C", 0)] := by
  have h := c5_batch_orchestration (α := ℕ) (σ := ℕ)
  constructor
  · rw [h.2.1 _ 0 [1, 2] (by decide)]
    exact h.1 _ 1 [2] (by decide)
  · exact h.2.2.2.1 _ [("A", 0)] [("C", 0)] "B" 1 (by decide)

namespace ExcelManager

theorem dictInsert_mem {k : CellValue} {v : EquipRec}
    {m : List (CellValue × EquipRec)} {p : CellValue × EquipRec}
    (hp : p ∈ dictInsert k v m) : p = (k, v) ∨ p ∈ m := by
  induction m with
  | nil => simpa [dictInsert] using hp
  | cons q t ih =>
      rw [dictInsert] at hp
      split at hp
      · rcases List.mem_cons.mp hp with h | h
        · exact Or.inl h
        · exact Or.inr (List.mem_cons_of_mem q h)
      · rcases List.mem_cons.mp hp with h | h
        · exact Or.inr (h ▸ List.mem_cons_self q t)
        · rcases ih h with h' | h'
          · exact Or.inl h'
          · exact Or.inr (List.mem_cons_of_mem q h')

theorem flush_inv {cur : Option EquipRec} {m : List (CellValue × EquipRec)}
    (hm : ∀ p ∈ m, p.2.components ≠ []) :
    ∀ p ∈ flush cur m, p.2.components ≠ [] := by
  intro p hp
  cases cur with
  | none => exact hm p hp
  | some c =>
      rw [flush] at hp
      split at hp
      · rcases dictInsert_mem hp with h | h
        · rw [h]
          assumption
        · exact hm p h
      · exact hm p hp

theorem scanRows_inv (ws : Sheet) :
    ∀ (fuel row : ℕ) (cur : Option EquipRec) (m : List (CellValue × EquipRec)),
      (∀ p ∈ m, p.2.components ≠ []) →
      ∀ p ∈ scanRows ws fuel row cur m, p.2.components ≠ [] := by
  intro fuel
  induction fuel with
  | zero => intro row cur m hm; exact flush_inv hm
  | succ f ih =>
      intro row cur m hm p hp
      rw [scanRows] at hp
      refine ih (row + 1) (scanStep ws row cur m).1 (scanStep ws row cur m).2 ?_ p hp
      intro q hq
      rw [scanStep] at hq
      simp only at hq
      split at hq
      · exact flush_inv hm q hq
      · exact hm q hq

end ExcelManager

open ExcelManager in
/-- C8: every entry of the equipment map returned by `read_masterfile`
has at least one component — an equipment row that accumulates zero
components by the time the next equipment starts or the scan ends is
never added to the map (the flushes at lines 36-38 and 72-73 are guarded
by `current_equipment.components`). -/
theorem c8_zero_component_equipment_dropped (ws : Sheet) :
    ∀ p ∈ read_masterfile ws, p.2.components ≠ [] := by
  intro p hp
  exact scanRows_inv ws _ 7 Option.none [] (by simp) p hp

open ExcelManager in
/-- C8, witness: on the concrete worksheet `sheetW` the scan returns
exactly the one-component equipment `V-1` (the component-less `V-2` is
absent), and the theorem applies to it. -/
theorem c8_zero_component_equipment_dropped_witness :
    read_masterfile sheetW = [(CellValue.str "V-1", equipW)] ∧
    equipW.components ≠ [] := by
  constructor
  · decide
  · exact c8_zero_component_equipment_dropped sheetW
      (CellValue.str "V-1", equipW) (by decide)


namespace PathStrings

theorem takeWhile_append_of_all {p : Char → Bool} (l1 l2 : List Char)
    (h : ∀ c ∈ l1, p c = true) :
    (l1 ++ l2).takeWhile p = l1 ++ l2.takeWhile p := by
  induction l1 with
  | nil => rfl
  | cons a t ih =>
      have ha := h a (List.mem_cons_self a t)
      simp only [List.cons_append, List.takeWhile_cons, ha, if_true]
      rw [ih (fun c hc => h c (List.mem_cons_of_mem a hc))]

theorem basenameL_append {x y : List Char} (h : ∀ c ∈ y, c ≠ '/') :
    basenameL (x ++ y) = basenameL x ++ y := by
  unfold basenameL
  rw [List.reverse_append,
    takeWhile_append_of_all y.reverse x.reverse
      (fun c hc => by simpa using h c (List.mem_reverse.mp hc)),
    List.reverse_append, List.reverse_reverse]

theorem dropWhile_head_not {p : Char → Bool} {l cs : List Char} {c : Char}
    (h : l.dropWhile p = c :: cs) : p c = false := by
  induction l with
  | nil => simp [List.dropWhile] at h
  | cons a t ih =>
      rw [List.dropWhile_cons] at h
      split at h
      · exact ih h
      · rename_i hpa
        obtain ⟨rfl, _⟩ := List.cons.injEq a t c cs ▸ h
        exact Bool.not_eq_true _ ▸ hpa

theorem splitExtL_append (s : List Char) :
    (splitExtL s).1 ++ (splitExtL s).2 = s := by
  cases hd : s.reverse.dropWhile (fun c => c != '.') with
  | nil => simp [splitExtL, hd]
  | cons c beforeRev =>
      have hc : c = '.' := by
        have := dropWhile_head_not hd
        simpa using this
      subst hc
      have hsplit := List.takeWhile_append_dropWhile
        (p := fun c => c != '.') (l := s.reverse)
      by_cases hg : (!(s.reverse.takeWhile (fun c => c != '.')).contains '/' &&
          (beforeRev.takeWhile (fun c => c != '/')).any (fun c => c != '.')) = true
      · simp only [splitExtL, hd, hg, if_true]
        have hs : s = beforeRev.reverse ++
            ('.' :: (s.reverse.takeWhile (fun c => c != '.')).reverse) := by
          conv_lhs => rw [← List.reverse_reverse s, ← hsplit, hd]
          rw [List.reverse_append, List.reverse_cons]
          simp [List.append_assoc]
        exact hs.symm
      · simp only [splitExtL, hd]
        rw [if_neg hg]
        simp

theorem splitExtL_ext_no_slash (s : List Char) :
    ∀ c ∈ (splitExtL s).2, c ≠ '/' := by
  cases hd : s.reverse.dropWhile (fun c => c != '.') with
  | nil => simp [splitExtL, hd]
  | cons c beforeRev =>
      by_cases hg : (!(s.reverse.takeWhile (fun c => c != '.')).contains '/' &&
          (beforeRev.takeWhile (fun c => c != '/')).any (fun c => c != '.')) = true
      · simp only [splitExtL, hd, hg, if_true]
        intro x hx
        rcases List.mem_cons.mp hx with h | h
        · subst h; decide
        · intro hslash
          subst hslash
          have hmem : '/' ∈ s.reverse.takeWhile (fun c => c != '.') :=
            List.mem_reverse.mp h
          rcases Bool.and_eq_true_iff.mp hg with ⟨h1, _⟩
          simp at h1
          exact absurd hmem h1
      · simp only [splitExtL, hd]
        rw [if_neg hg]
        simp

theorem mem_basenameL_ne_slash (s : List Char) :
    ∀ c ∈ basenameL s, c ≠ '/' := by
  intro c hc
  have hm : c ∈ s.reverse.takeWhile (fun c => c != '/') :=
    List.mem_reverse.mp hc
  simpa using List.mem_takeWhile_imp hm

theorem joinL_exists (a b : List Char) : ∃ z, joinL a b = z ++ b := by
  unfold joinL
  by_cases hb : b.head? = some '/'
  · exact ⟨[], by simp [hb]⟩
  · rw [if_neg hb]
    cases a.getLast? with
    | none => exact ⟨a, rfl⟩
    | some c =>
        by_cases hc : c = '/'
        · exact ⟨a, by simp [hc]⟩
        · exact ⟨a ++ ['/'], by simp [hc]⟩

end PathStrings

namespace ExcelManager

theorem savePathChars_ne (l : List Char) (uid : Option ℕ) :
    savePathChars l uid ≠ l := by
  intro heq
  have hext := PathStrings.splitExtL_ext_no_slash l
  have hbn := PathStrings.mem_basenameL_ne_slash (PathStrings.splitExtL l).1
  have hmod : ∀ c ∈ "_modified".data, c ≠ '/' := by decide
  have hrest : ∀ c ∈ PathStrings.basenameL (PathStrings.splitExtL l).1 ++
      "_modified".data ++ (PathStrings.splitExtL l).2, c ≠ '/' := by
    intro c hc
    rcases List.mem_append.mp hc with hc | hc
    · rcases List.mem_append.mp hc with hc | hc
      · exact hbn c hc
      · exact hmod c hc
    · exact hext c hc
  have hbase : PathStrings.basenameL l =
      PathStrings.basenameL (PathStrings.splitExtL l).1 ++ (PathStrings.splitExtL l).2 := by
    conv_lhs => rw [← PathStrings.splitExtL_append l]
    exact PathStrings.basenameL_append hext
  cases uid with
  | none =>
      obtain ⟨z, hz⟩ := PathStrings.joinL_exists
        (PathStrings.joinL "src\\output_files".data "default/excel".data)
        (PathStrings.basenameL (PathStrings.splitExtL l).1 ++
          "_modified".data ++ (PathStrings.splitExtL l).2)
      simp only [savePathChars] at heq
      rw [hz] at heq
      have hb := congrArg PathStrings.basenameL heq
      rw [PathStrings.basenameL_append hrest, hbase] at hb
      have hlen := congrArg List.length hb
      simp [List.length_append] at hlen
      omega
  | some u =>
      obtain ⟨z, hz⟩ := PathStrings.joinL_exists
        (PathStrings.joinL "src\\output_files".data
          ("user_".data ++ (toString u).data ++ "/excel".data))
        ((toString u).data ++ "_".data ++
          PathStrings.basenameL (PathStrings.splitExtL l).1 ++
          "_modified".data ++ (PathStrings.splitExtL l).2)
      simp only [savePathChars] at heq
      rw [hz] at heq
      have hassoc : z ++ ((toString u).data ++ "_".data ++
          PathStrings.basenameL (PathStrings.splitExtL l).1 ++
          "_modified".data ++ (PathStrings.splitExtL l).2) =
          (z ++ ((toString u).data ++ "_".data)) ++
            (PathStrings.basenameL (PathStrings.splitExtL l).1 ++
              "_modified".data ++ (PathStrings.splitExtL l).2) := by
        simp [List.append_assoc]
      rw [hassoc] at heq
      have hb := congrArg PathStrings.basenameL heq
      rw [PathStrings.basenameL_append hrest, hbase] at hb
      have hlen := congrArg List.length hb
      simp [List.length_append] at hlen
      omega

end ExcelManager

open ExcelManager in
/-- C9: the output path computed by `save_to_excel` always differs from
the manager's source file path (the source workbook is never
overwritten), and the call returns a boolean: any failure of the write
body yields `(false, no file written)` — the `try/except Exception`
wrapper turns every exception into the `False` return, so nothing
propagates — while success yields `true` with the file written at the
derived output path. -/
theorem c9_save_never_overwrites_source (file_path : String) (user_id : Option ℕ) :
    savePath file_path user_id ≠ file_path ∧
    (∀ e : String,
      save_to_excel file_path user_id (SaveOutcome.error e) = (false, Option.none)) ∧
    save_to_excel file_path user_id SaveOutcome.ok =
      (true, some (savePath file_path user_id)) := by
  refine ⟨?_, fun e => rfl, rfl⟩
  intro h
  exact savePathChars_ne file_path.data user_id (congrArg String.data h)

open ExcelManager in
/-- C9, witness: for the concrete source `"data/Master.xlsx"` and user 7
the derived output path differs from the source and a failing save
returns `false`. -/
theorem c9_save_never_overwrites_source_witness :
    savePath "data/Master.xlsx" (some 7) ≠ "data/Master.xlsx" ∧
    save_to_excel "data/Master.xlsx" (some 7) (SaveOutcome.error "disk full") =
      (false, Option.none) :=
  ⟨(c9_save_never_overwrites_source "data/Master.xlsx" (some 7)).1,
   (c9_save_never_overwrites_source "data/Master.xlsx" (some 7)).2.1 "disk full"⟩

theorem listContains_nil (l : List Char) : listContains [] l = true := by
  cases l <;> simp [listContains, listStarts]

open Utils in
/-- C10: when the normalized PMT number is empty (e.g. `""`, `" "`,
`"--"`), `find_equipment_images` matches every PNG/JPG/JPEG file of the
directory tree (the empty string is a substring of every cleaned stem);
and for every PMT number the returned list is sorted and free of
duplicates. -/
theorem c10_image_search (pmt_number : String) (files : List FileEntry) :
    (cleanName pmt_number = "" →
      ∀ f : FileEntry, f ∈ find_equipment_images pmt_number files ↔
        f ∈ files ∧ (f.ext = ".png" ∨ f.ext = ".jpg" ∨ f.ext = ".jpeg")) ∧
    List.Sorted fileLe (find_equipment_images pmt_number files) ∧
    (find_equipment_images pmt_number files).Nodup := by
  refine ⟨fun h f => ?_, ?_, ?_⟩
  · have hdata : (cleanName pmt_number).data = [] := by rw [h]
    rw [find_equipment_images]
    rw [List.Perm.mem_iff (List.perm_insertionSort fileLe _), List.mem_dedup]
    simp [List.mem_append, List.mem_filter, hdata, listContains_nil]
    tauto
  · exact List.sorted_insertionSort fileLe _
  · exact (List.Perm.nodup_iff (List.perm_insertionSort fileLe _)).mpr
      (List.nodup_dedup _)

open Utils in
/-- C10, witness: for the PMT number `" --"` (normalized to the empty
string) over a concrete tree, a JPG is returned, a TXT is not, and the
general sortedness applies. -/
theorem c10_image_search_witness :
    ((⟨"a doc", ".jpg"⟩ : FileEntry) ∈
      find_equipment_images " --" [⟨"b-doc", ".png"⟩, ⟨"a doc", ".jpg"⟩, ⟨"c", ".txt"⟩]) ∧
    ¬ ((⟨"c", ".txt"⟩ : FileEntry) ∈
      find_equipment_images " --" [⟨"b-doc", ".png"⟩, ⟨"a doc", ".jpg"⟩, ⟨"c", ".txt"⟩]) := by
  have h := (c10_image_search " --"
    [⟨"b-doc", ".png"⟩, ⟨"a doc", ".jpg"⟩, ⟨"c", ".txt"⟩]).1 (by decide)
  constructor
  · exact (h ⟨"a doc", ".jpg"⟩).mpr ⟨by decide, by decide⟩
  · intro hm
    have hc := ((h ⟨"c", ".txt"⟩).mp hm).2
    revert hc
    decide
